import Mathlib

/-!
Verification of the tana contract generator and its client hydration runtime.

The definitions below are shallow embeddings of the TypeScript sources:
`src/generator.ts` (route scanning, unit bundling, router code generation),
`src/routes.ts` (layout-aware route scanner) and the generated hydration
module (Flight-protocol streaming codec).  Strings from generated JavaScript
are reproduced verbatim; machine strings are modelled as `String`/`List Char`.
-/

/-! ## Character and list helpers -/

/-- Whitespace test used throughout (models the common JS whitespace classes
space, tab, newline, carriage return; the generated code only meets these). -/
def isWsChar (c : Char) : Bool :=
  c = ' ' || c = '\t' || c = '\n' || c = '\r'

/-- ASCII decimal digit test. -/
def isDigitChar (c : Char) : Bool :=
  48 ≤ c.toNat && c.toNat ≤ 57

/-- Word character of the JS regex class backslash-w: ASCII letters, digits,
underscore. -/
def isWordChar (c : Char) : Bool :=
  ('a' ≤ c && c ≤ 'z') || ('A' ≤ c && c ≤ 'Z') || isDigitChar c || c = '_'

/-- Split a character list at every occurrence of `sep`, keeping empty pieces,
as JS `String.prototype.split` does (`'/a/b'.split('/') = ['', 'a', 'b']`). -/
def splitCh (sep : Char) : List Char → List (List Char)
  | [] => [[]]
  | c :: rest =>
    match splitCh sep rest with
    | [] => [[c]]
    | l :: ls => if c = sep then [] :: l :: ls else (c :: l) :: ls

/-- Index of the first occurrence of `c`, as JS `indexOf` (None models -1). -/
def firstIdxOf (c : Char) : List Char → Option Nat
  | [] => none
  | x :: rest => if x = c then some 0 else (firstIdxOf c rest).map (· + 1)

/-- Index of the first occurrence of `pat` as a contiguous sublist of `hay`
(naive substring search, models JS `indexOf` on strings). -/
def findSub (hay pat : List Char) : Option Nat :=
  match hay with
  | [] => if pat.isEmpty then some 0 else none
  | _ :: rest =>
    if pat.isPrefixOf hay then some 0
    else (findSub rest pat).map (· + 1)

/-- Substring containment on `String`s via `findSub`. -/
def strContainsSub (hay pat : String) : Bool :=
  (findSub hay.data pat.data).isSome

/-- Prefix test on `String`s (models JS `startsWith`; both sides ASCII in all
uses, so code-unit prefix equals character prefix). -/
def strStartsWith (s pre : String) : Bool :=
  pre.data.isPrefixOf s.data

/-- Suffix test on `String`s (models JS `endsWith`). -/
def strEndsWith (s suf : String) : Bool :=
  suf.data.isSuffixOf s.data

/-- Drop the first `n` characters of a string (models JS `slice(n)` for ASCII
content). -/
def strDrop (s : String) (n : Nat) : String :=
  ⟨s.data.drop n⟩

/-- Drop the last `n` characters of a string. -/
def strDropRight (s : String) (n : Nat) : String :=
  ⟨s.data.take (s.data.length - n)⟩

/-- Digits to a natural number, most significant first (accumulator form). -/
def digitsToNat (acc : Nat) : List Char → Nat
  | [] => acc
  | d :: ds => digitsToNat (acc * 10 + (d.toNat - 48)) ds

/-- Model of JS `parseInt(s, 10)`: skip leading whitespace, optional sign,
then a maximal run of decimal digits; `none` models `NaN` (no digits). -/
def jsParseInt (s : List Char) : Option Int :=
  let t := s.dropWhile isWsChar
  let core : List Char → Option Nat := fun cs =>
    let ds := cs.takeWhile isDigitChar
    if ds.isEmpty then none else some (digitsToNat 0 ds)
  match t with
  | '-' :: rest => (core rest).map (fun n => -(n : Int))
  | '+' :: rest => (core rest).map (fun n => (n : Int))
  | _ => (core t).map (fun n => (n : Int))

/-! ## JSON values and a model of `JSON.parse`

The hydration module calls the host `JSON.parse` on the text after the colon
of each wire row.  We model JSON values syntactically; numbers keep their
lexeme (the codec never computes with them, it only caches and re-renders). -/

inductive JValue where
  | jnull : JValue
  | jbool (b : Bool) : JValue
  | jnum (lexeme : String) : JValue
  | jstr (s : String) : JValue
  | jarr (xs : List JValue) : JValue
  | jobj (fields : List (String × JValue)) : JValue
deriving Repr

/-- JSON whitespace (space, tab, line feed, carriage return). -/
def isJsonWs (c : Char) : Bool :=
  c = ' ' || c = '\t' || c = '\n' || c = '\r'

/-- Hex digit value (by code point: 0-9, a-f, A-F). -/
def hexDigit (c : Char) : Option Nat :=
  let n := c.toNat
  if 48 ≤ n && n ≤ 57 then some (n - 48)
  else if 97 ≤ n && n ≤ 102 then some (n - 87)
  else if 65 ≤ n && n ≤ 70 then some (n - 55)
  else none

/-- Parse a JSON string body after the opening quote; returns the decoded
characters and the remainder after the closing quote. -/
def parseJsonStringBody : Nat → List Char → Option (List Char × List Char)
  | 0, _ => none
  | _ + 1, [] => none
  | fuel + 1, c :: rest =>
    if c = '\x22' then some ([], rest)
    else if c = '\\' then
      match rest with
      | [] => none
      | e :: rest2 =>
        let simple : Option Char :=
          if e = '\x22' then some '\x22'
          else if e = '\\' then some '\\'
          else if e = '/' then some '/'
          else if e = 'b' then some '\x08'
          else if e = 'f' then some '\x0C'
          else if e = 'n' then some '\n'
          else if e = 'r' then some '\r'
          else if e = 't' then some '\t'
          else none
        match simple with
        | some d =>
          match parseJsonStringBody fuel rest2 with
          | some (cs, rem) => some (d :: cs, rem)
          | none => none
        | none =>
          if e = 'u' then
            match rest2 with
            | h1 :: h2 :: h3 :: h4 :: rest3 =>
              match hexDigit h1, hexDigit h2, hexDigit h3, hexDigit h4 with
              | some a, some b, some cc, some d =>
                let n := 16 * (16 * (16 * a + b) + cc) + d
                match parseJsonStringBody fuel rest3 with
                | some (cs, rem) => some (Char.ofNat n :: cs, rem)
                | none => none
              | _, _, _, _ => none
            | _ => none
          else none
    else if c.toNat < 32 then none
    else
      match parseJsonStringBody fuel rest with
      | some (cs, rem) => some (c :: cs, rem)
      | none => none

/-- Parse a JSON number lexeme (sign, integer part, optional fraction and
exponent, per the JSON grammar).  Returns the lexeme and the remainder. -/
def parseJsonNumber (cs : List Char) : Option (List Char × List Char) :=
  let (sign, cs1) :=
    match cs with
    | '-' :: rest => (['-'], rest)
    | _ => (([] : List Char), cs)
  let intPart : Option (List Char × List Char) :=
    match cs1 with
    | '0' :: rest => some (['0'], rest)
    | c :: rest =>
      if isDigitChar c && c ≠ '0' then
        let ds := rest.takeWhile isDigitChar
        some (c :: ds, rest.drop ds.length)
      else none
    | [] => none
  match intPart with
  | none => none
  | some (ip, cs2) =>
    let (fracPart, cs3) :=
      match cs2 with
      | '.' :: rest =>
        let ds := rest.takeWhile isDigitChar
        if ds.isEmpty then (none, cs2) else (some ('.' :: ds), rest.drop ds.length)
      | _ => ((none : Option (List Char)), cs2)
    match fracPart, cs2 with
    | none, '.' :: _ => none
    | _, _ =>
      let (expPart, cs4) :=
        match cs3 with
        | e :: rest =>
          if e = 'e' || e = 'E' then
            let (es, rest2) :=
              match rest with
              | s :: r2 => if s = '+' || s = '-' then ([e, s], r2) else ([e], rest)
              | [] => ([e], rest)
            let ds := rest2.takeWhile isDigitChar
            if ds.isEmpty then ((none : Option (List Char)), cs3)
            else (some (es ++ ds), rest2.drop ds.length)
          else ((none : Option (List Char)), cs3)
        | [] => ((none : Option (List Char)), cs3)
      match expPart, cs3 with
      | none, e :: _ =>
        if e = 'e' || e = 'E' then none
        else some (sign ++ ip ++ (fracPart.getD []), cs3)
      | _, _ => some (sign ++ ip ++ (fracPart.getD []) ++ (expPart.getD []), cs4)

mutual

/-- Recursive-descent JSON value parser (fuel-indexed for termination). -/
def parseJsonValue : Nat → List Char → Option (JValue × List Char)
  | 0, _ => none
  | fuel + 1, cs =>
    let cs := cs.dropWhile isJsonWs
    match cs with
    | [] => none
    | c :: rest =>
      if c = 'n' then
        if ['u', 'l', 'l'].isPrefixOf rest then some (.jnull, rest.drop 3) else none
      else if c = 't' then
        if ['r', 'u', 'e'].isPrefixOf rest then some (.jbool true, rest.drop 3) else none
      else if c = 'f' then
        if ['a', 'l', 's', 'e'].isPrefixOf rest then some (.jbool false, rest.drop 4) else none
      else if c = '\x22' then
        match parseJsonStringBody (rest.length + 1) rest with
        | some (body, rem) => some (.jstr ⟨body⟩, rem)
        | none => none
      else if c = '\x5b' then
        match parseJsonArrayItems fuel (rest.dropWhile isJsonWs) true with
        | some (xs, rem) => some (.jarr xs, rem)
        | none => none
      else if c = '\x7b' then
        match parseJsonObjectFields fuel (rest.dropWhile isJsonWs) true with
        | some (fs, rem) => some (.jobj fs, rem)
        | none => none
      else
        match parseJsonNumber (c :: rest) with
        | some (lex, rem) => some (.jnum ⟨lex⟩, rem)
        | none => none

/-- Items of a JSON array after `[`; `first` is true before any item. -/
def parseJsonArrayItems : Nat → List Char → Bool → Option (List JValue × List Char)
  | 0, _, _ => none
  | fuel + 1, cs, first =>
    match cs with
    | ']' :: rest =>
      if first then some ([], rest) else none
    | _ =>
      match parseJsonValue fuel cs with
      | none => none
      | some (v, rem) =>
        let rem := rem.dropWhile isJsonWs
        match rem with
        | ']' :: rest => some ([v], rest)
        | ',' :: rest =>
          match parseJsonArrayItems fuel (rest.dropWhile isJsonWs) false with
          | some (xs, rem2) => some (v :: xs, rem2)
          | none => none
        | _ => none

/-- Fields of a JSON object after the opening brace. -/
def parseJsonObjectFields : Nat → List Char → Bool → Option (List (String × JValue) × List Char)
  | 0, _, _ => none
  | fuel + 1, cs, first =>
    match cs with
    | '\x7d' :: rest =>
      if first then some ([], rest) else none
    | '\x22' :: rest =>
      match parseJsonStringBody (rest.length + 1) rest with
      | none => none
      | some (key, rem) =>
        let rem := rem.dropWhile isJsonWs
        match rem with
        | ':' :: rest2 =>
          match parseJsonValue fuel rest2 with
          | none => none
          | some (v, rem2) =>
            let rem2 := rem2.dropWhile isJsonWs
            match rem2 with
            | '\x7d' :: rest3 => some ([(⟨key⟩, v)], rest3)
            | ',' :: rest3 =>
              match parseJsonObjectFields fuel (rest3.dropWhile isJsonWs) false with
              | some (fs, rem3) => some ((⟨key⟩, v) :: fs, rem3)
              | none => none
            | _ => none
        | _ => none
    | _ => none

end

/-- Model of `JSON.parse`: parse one value, allow surrounding whitespace,
reject trailing garbage; `none` models a thrown `SyntaxError`. -/
def jsonParse (cs : List Char) : Option JValue :=
  match parseJsonValue (cs.length + 1) cs with
  | some (v, rem) => if (rem.dropWhile isJsonWs).isEmpty then some v else none
  | none => none

/-! ## Streaming Tree Protocol codec (hydration runtime `loadPage`)

Embedding of the generated hydration module's decode loop:

  buffer += decoder.decode(value, [stream])
  const lines = buffer.split(backslash-n); buffer = lines.pop();
  for each nonblank complete line: parseFlightRow, cache the row;
  after the stream ends, a nonblank trailing buffer is parsed as one row.

`parseFlightRow` splits at the first colon, `parseInt`s the id and
`JSON.parse`s the remainder; a missing colon yields `null` (the row is
skipped), while malformed JSON makes `JSON.parse` throw, which rejects the
whole `loadPage` promise (modelled by the `aborted` flag, absorbing). -/

/-- Row id: `parseInt` result, `none` models `NaN`. -/
abbrev RowId := Option Int

/-- The row cache `rowCache : Map`, keyed in insertion order; `cacheSet`
models `Map.set` (overwrite in place, append if new). -/
def cacheSet : List (RowId × JValue) → RowId → JValue → List (RowId × JValue)
  | [], k, v => [(k, v)]
  | (k', v') :: rest, k, v =>
    if k' = k then (k', v) :: rest else (k', v') :: cacheSet rest k v

/-- Codec state: the partial-line buffer, the row cache and whether the
decode loop has been torn down by an uncaught exception. -/
structure CodecState where
  buffer : List Char
  cache : List (RowId × JValue)
  aborted : Bool
deriving Repr

/-- Initial codec state (`buffer = ''`, empty caches). -/
def initCodec : CodecState := ⟨[], [], false⟩

/-- Model of `parseFlightRow(line)`: `.ok none` is the `null` return for a
line with no colon; `.error ()` is a `JSON.parse` throw. -/
def parseFlightRow (line : List Char) : Except Unit (Option (RowId × JValue)) :=
  match firstIdxOf ':' line with
  | none => .ok none
  | some ci =>
    let idStr := line.take ci
    let jsonText := line.drop (ci + 1)
    match jsonParse jsonText with
    | some v => .ok (some (jsParseInt idStr, v))
    | none => .error ()

/-- Process one complete line of the stream, as the body of the
`for (const line of lines)` loop: skip blank lines (`line.trim()` falsy),
skip rows without a colon, cache good rows, abort on a JSON throw.  The
flag is absorbing: after a throw no further code of `loadPage` runs. -/
def processLine (st : CodecState) (line : List Char) : CodecState :=
  if st.aborted then st
  else if line.all isWsChar then st
  else
    match parseFlightRow line with
    | .error _ => { st with aborted := true }
    | .ok none => st
    | .ok (some (id, v)) => { st with cache := cacheSet st.cache id v }

/-- Split into (complete lines, trailing partial line): the JS
`lines = buffer.split(newline); buffer = lines.pop()`. -/
def splitLines : List Char → List (List Char) × List Char
  | [] => ([], [])
  | c :: rest =>
    if c = '\n' then ([] :: (splitLines rest).1, (splitLines rest).2)
    else
      match (splitLines rest).1 with
      | [] => ([], c :: (splitLines rest).2)
      | l :: ls2 => ((c :: l) :: ls2, (splitLines rest).2)

/-- One iteration of the read loop: append the chunk to the buffer, process
every complete line, keep the trailing partial line buffered.  On an aborted
state nothing runs (the promise already rejected). -/
def feed (st : CodecState) (chunk : List Char) : CodecState :=
  if st.aborted then st
  else
    List.foldl processLine
      { st with buffer := (splitLines (st.buffer ++ chunk)).2 }
      (splitLines (st.buffer ++ chunk)).1

/-- After `done`: a nonblank trailing buffer is parsed as one final row. -/
def finishCodec (st : CodecState) : CodecState :=
  if st.aborted then st
  else if st.buffer.all isWsChar then st
  else processLine st st.buffer

/-- Run the codec over a sequence of chunks, as `loadPage` does. -/
def runCodec (chunks : List (List Char)) : CodecState :=
  finishCodec (List.foldl feed initCodec chunks)

/-! ## Routed requests and the generated dispatch (`generateRSCRouter`)

The generated contract's `Get(request)` destructures `path` and `method`,
delegates API-prefixed paths to the `get`/`post` routers and returns `null`
for everything else. -/

/-- The request shape the generated routers consume (`path`, `method`; the
other destructured fields do not influence routing). -/
structure Request where
  path : String
  method : String
deriving Repr, DecidableEq

/-- Result of the generated composite `Get`: delegation to one of the two
API method routers with a rewritten request, or the `null` sentinel that
tells tana-edge to render the page itself. -/
inductive DispatchResult where
  | toGet (req : Request) : DispatchResult
  | toPost (req : Request) : DispatchResult
  | pageNull : DispatchResult
deriving Repr, DecidableEq

/-- The prefix-stripped API path: `path.slice(4)` after `/api`, else
`path.slice(3)` after `api`. -/
def apiStripped (path : String) : String :=
  if strStartsWith path "/api" then strDrop path 4 else strDrop path 3

/-- Re-normalization to a leading separator:
`apiPath === '' ? '/' : (apiPath.startsWith('/') ? apiPath : '/' + apiPath)`. -/
def apiNormalized (apiPath : String) : String :=
  if apiPath = "" then "/"
  else if strStartsWith apiPath "/" then apiPath
  else "/" ++ apiPath

/-- The rewritten request handed to the method routers:
`{ ...request, path: normalizedPath }`. -/
def apiRequestOf (req : Request) : Request :=
  { req with path := apiNormalized (apiStripped req.path) }

/-- The generated composite `Get(request)` of `generateRSCRouter` (emitted
identically for empty and non-empty page catalogs). -/
def tanaGet (req : Request) : DispatchResult :=
  if strStartsWith req.path "/api" || strStartsWith req.path "api" then
    let apiRequest := apiRequestOf req
    if req.method = "POST" then .toPost apiRequest else .toGet apiRequest
  else .pageNull

/-! ## Route catalog entries and matching -/

/-- One catalogued route as `scanDir` in `generator.ts` produces it:
`routePath` plus the optional `params` list (present only when the path has
dynamic `:name` segments). -/
structure RouteFile where
  routePath : String
  params : Option (List String)
deriving Repr, DecidableEq

/-- Segment-wise match of a request path against the single-segment-capture
regex the generator builds (`seg.startsWith(':') ? '([^/]+)' : seg`, joined
with escaped slashes and anchored).  A dynamic segment matches one or more
non-slash characters; a literal segment must be equal (all route paths the
scanner can produce are free of regex metacharacters, where this segmentwise
reading and the regex coincide). -/
def segsMatch : List (List Char) → List (List Char) → Bool
  | [], [] => true
  | p :: ps, s :: ss =>
    (if p.head? = some ':' then !s.isEmpty else p == s) && segsMatch ps ss
  | _, _ => false

/-- Dynamic-route pattern match (`path.match(/^...$/)` non-null). -/
def patMatch (routePath path : String) : Bool :=
  segsMatch (splitCh '/' routePath.data) (splitCh '/' path.data)

/-- A route matches a path: dynamic routes by pattern, static routes by
string equality (`path === routePath` and the `case` labels). -/
def routeMatches (r : RouteFile) (path : String) : Bool :=
  match r.params with
  | some _ => patMatch r.routePath path
  | none => r.routePath == path

/-- The generated helper `extractParams(path, pattern)`: split both on `/`,
drop empty segments, pair each `:name` pattern segment with the path segment
at the same index (`none` models JS `undefined` when absent). -/
def extractParams (path pattern : String) : List (String × Option String) :=
  let segments := (splitCh '/' path.data).filter (fun s => !s.isEmpty)
  let patternSegments := (splitCh '/' pattern.data).filter (fun s => !s.isEmpty)
  (patternSegments.enum).filterMap fun (i, seg) =>
    match seg with
    | ':' :: nm => some (⟨nm⟩, (segments.get? i).map (fun s => ⟨s⟩))
    | _ => none

/-- First matching route with its catalog index (the generated code checks
routes in catalog order; first match wins). -/
def firstMatchAux : Nat → List RouteFile → String → Option (Nat × RouteFile)
  | _, [], _ => none
  | i, r :: rs, path =>
    if routeMatches r path then some (i, r) else firstMatchAux (i + 1) rs path

/-! ## The generated RSC page router (`Page`) -/

mutual

/-- A renderable tree as the generated `Page` builds it with `jsx(...)`:
either a host element with a props object, or a reference to the bundled
page component `Page_i` applied to `{ request, params? }`. -/
inductive RTree where
  | el (tag : String) (props : List (String × RVal)) : RTree
  | comp (idx : Nat) (request : Request)
      (params : Option (List (String × Option String))) : RTree

/-- A props value: string, nested object (the inline `style`), or a list of
child trees. -/
inductive RVal where
  | str (s : String) : RVal
  | obj (fields : List (String × String)) : RVal
  | nodes (xs : List RTree) : RVal

end

/-- The 404 fallback tree of the non-empty-catalog `Page`: a styled div with
an `h1` holding `'404'` and a `p` holding `'Page not found: ' + path`. -/
def pageNotFoundTree (path : String) : RTree :=
  .el "div"
    [("style", .obj [("padding", "40px"), ("textAlign", "center")]),
     ("children", .nodes
       [.el "h1" [("key", .str "title"), ("children", .str "404")],
        .el "p" [("key", .str "msg"),
                 ("children", .str ("Page not found: " ++ path))]])]

/-- The generated `Page(props)` router: with an empty catalog it is the fixed
`'404 - Page Not Found'` div; otherwise it normalizes the path
(`props.request?.path || '/'`), tries each route in catalog order (static
equality or dynamic regex with `extractParams`) and falls back to
`pageNotFoundTree`. -/
def pageRouter (pages : List RouteFile) (req : Request) : RTree :=
  if pages.isEmpty then .el "div" [("children", .str "404 - Page Not Found")]
  else
    let path := if req.path = "" then "/" else req.path
    match firstMatchAux 0 pages path with
    | some (i, r) =>
      match r.params with
      | some _ => .comp i req (some (extractParams path r.routePath))
      | none => .comp i req none
    | none => pageNotFoundTree path

/-! ## The generated API routers (`generateAPIRouter`)

The generated `get`/`post` function is a `switch (path)` whose cases are
emitted per catalog entry: static routes as `case` clauses, dynamic routes
as bare `if (request.path.match(...))` statements.  A bare statement inside
a switch body before the first `case` label is not valid JavaScript, and
after a returning `case` it is unreachable; the executable semantics below
therefore covers catalogs of static routes (where the generated code parses
and runs), and the string template is embedded verbatim so the malformed
dynamic output can be exhibited directly. -/

/-- The exact JSON not-found response of the generated API routers. -/
structure ApiResponse where
  status : Nat
  body : JValue
  headers : List (String × String)
deriving Repr

/-- Outcome of a generated API router: a call into the bundled handler with
the (possibly params-augmented) request, or a literal response. -/
inductive ApiOutcome where
  | call (idx : Nat) (req : Request) : ApiOutcome
  | response (r : ApiResponse) : ApiOutcome
deriving Repr

/-- The literal `{ status: 404, body: { error: 'Not found' }, headers:
{ 'Content-Type': 'application/json' } }`. -/
def apiNotFound : ApiResponse :=
  { status := 404
    body := .jobj [("error", .jstr "Not found")]
    headers := [("Content-Type", "application/json")] }

/-- First `case` clause selected by the generated `switch`: the first
static route whose `routePath` equals the request path, with its catalog
index (dynamic entries are not `case` clauses and can never be selected). -/
def firstStaticCaseAux : Nat → List RouteFile → String → Option Nat
  | _, [], _ => none
  | i, r :: rs, path =>
    if r.params.isNone && r.routePath == path then some i
    else firstStaticCaseAux (i + 1) rs path

/-- Semantics of the generated `get`/`post` router for catalogs whose
generated `switch` is valid JavaScript (empty, or static routes; dynamic
entries after a `case` are dead code): the first static case equal to the
path wins, everything else falls to the `default` 404 arm. -/
def apiRouter (routes : List RouteFile) (req : Request) : ApiOutcome :=
  if routes.isEmpty then .response apiNotFound
  else
    match firstStaticCaseAux 0 routes req.path with
    | some i => .call i req
    | none => .response apiNotFound

/-! ## The emitted router source text (`generateAPIRouter` template) -/

/-- The unique alias per bundle, from `bundleFile`: `Page_i`, `GetHandler_i`,
`PostHandler_i`, `initHandler`, `contractHandler`, else `Handler_i`. -/
def aliasNameFor (type : String) (index : Nat) : String :=
  if type = "page" then "Page_" ++ toString index
  else if type = "get" then "GetHandler_" ++ toString index
  else if type = "post" then "PostHandler_" ++ toString index
  else if type = "init" then "initHandler"
  else if type = "contract" then "contractHandler"
  else "Handler_" ++ toString index

/-- The regex source the generator builds for a dynamic route:
`routePath.split('/').map(seg => seg.startsWith(':') ? '([^/]+)' : seg).join('\\/')`. -/
def dynPattern (routePath : String) : String :=
  String.intercalate "\\/"
    ((splitCh '/' routePath.data).map fun seg =>
      if seg.head? = some ':' then "([^/]+)" else (⟨seg⟩ : String))

/-- One emitted `cases` entry of `generateAPIRouter`: a bare `if`-statement
block for a dynamic route, a `case` clause for a static one (verbatim from
the template literals in the source). -/
def apiCaseFor (route : RouteFile) (i : Nat) (method : String) : String :=
  let handlerName := aliasNameFor method i
  match route.params with
  | some _ =>
    "    // " ++ route.routePath ++
    "\n    if (request.path.match(/^" ++ dynPattern route.routePath ++
    "$/)) \x7b\n      const params = extractParams(request.path, \x22" ++
    route.routePath ++ "\x22);\n      return " ++ handlerName ++
    "(\x7b ...request, params \x7d);\n    \x7d"
  | none =>
    "    case \x27" ++ route.routePath ++ "\x27:\n      return " ++
    handlerName ++ "(request);"

/-- The verbatim output of `generateAPIRouter(routes, bundles, method)`:
the fixed 404 function for an empty catalog, otherwise the `switch (path)`
router with one emitted entry per route and a `default` 404 arm. -/
def generateAPIRouterCode (routes : List RouteFile) (method : String) : String :=
  if routes.isEmpty then
    "export function " ++ method ++
    "(request) \x7b\n  return \x7b\n    status: 404,\n    body: \x7b error: \x27Not found\x27 \x7d,\n    headers: \x7b \x27Content-Type\x27: \x27application/json\x27 \x7d\n  \x7d;\n\x7d"
  else
    let cases := String.intercalate "\n\n"
      (routes.enum.map fun ir => apiCaseFor ir.2 ir.1 method)
    "export function " ++ method ++
    "(request) \x7b\n  const \x7b path, query, headers, body \x7d = request;\n\n  // Route matching\n  switch (path) \x7b\n" ++
    cases ++
    "\n\n    default:\n      return \x7b\n        status: 404,\n        body: \x7b error: \x27Not found\x27 \x7d,\n        headers: \x7b \x27Content-Type\x27: \x27application/json\x27 \x7d\n      \x7d;\n  \x7d\n\x7d"

/-- Checks whether the emitted router text has an `if (`-statement inside the
`switch (path)` body before the first `case ` label.  ECMAScript's
`CaseBlock` grammar admits only `case`/`default` clauses directly inside a
switch body, so such output is not parseable JavaScript. -/
def hasIfBeforeFirstCase (code : String) : Bool :=
  match findSub code.data ("switch (path) \x7b").data with
  | none => false
  | some i =>
    let body := code.data.drop (i + ("switch (path) \x7b").data.length)
    match findSub body ("if (").data, findSub body ("case ").data with
    | some a, some b => decide (a < b)
    | some _, none => true
    | _, _ => false

/-- The fixed 404 document of the SSR router variant (`generateSSRRouter`
default arm and empty-catalog `ssr`). -/
def ssrDefault404Body : String :=
  "<!DOCTYPE html><html><body><h1>404 Not Found</h1></body></html>"

/-! ## The Unit Bundler's default-export detection (`bundleFile`)

`bundleFile` locates the unit's default export by trying three regexes in
order: `export \x7b Name as default \x7d;` on a line, `export default
function Name`, then `export default Name;` on a line.  Each matcher below
implements one regex as a scanner over character lists (the regexes use only
literals, the word class, the whitespace class and a multiline
end-of-line anchor).  When none matches, the source keeps `originalName =
null`, skips the rename, and returns normally: there is no error path. -/

/-- Strip a literal prefix. -/
def matchLit : List Char → List Char → Option (List Char)
  | [], cs => some cs
  | _ :: _, [] => none
  | l :: ls, c :: cs => if c = l then matchLit ls cs else none

/-- Require at least one whitespace character, then skip the run (regex
whitespace-plus). -/
def reqWs1 : List Char → Option (List Char)
  | [] => none
  | c :: rest => if isWsChar c then some (rest.dropWhile isWsChar) else none

/-- Optional semicolon. -/
def optSemi : List Char → List Char
  | ';' :: rest => rest
  | cs => cs

/-- The multiline anchor `ws-star eol`: only whitespace up to the next
newline (or the end of input). -/
def wsThenEol : List Char → Bool
  | [] => true
  | c :: rest => if c = '\n' then true else if isWsChar c then wsThenEol rest else false

/-- Matcher for `export \x7b (\w+) as default \x7d;? eol` at the given
position. -/
def matchBraceDefaultAt (cs : List Char) : Option String := do
  let cs ← matchLit "export".data cs
  let cs := cs.dropWhile isWsChar
  let cs ← match cs with | '\x7b' :: r => some r | _ => none
  let cs := cs.dropWhile isWsChar
  let nm := cs.takeWhile isWordChar
  if nm.isEmpty then none else
  let cs := cs.dropWhile isWordChar
  let cs ← reqWs1 cs
  let cs ← matchLit "as".data cs
  let cs ← reqWs1 cs
  let cs ← matchLit "default".data cs
  let cs := cs.dropWhile isWsChar
  let cs ← match cs with | '\x7d' :: r => some r | _ => none
  let cs := optSemi cs
  if wsThenEol cs then some ⟨nm⟩ else none

/-- Matcher for `export default function (\w+)` at the given position. -/
def matchDefaultFunctionAt (cs : List Char) : Option String := do
  let cs ← matchLit "export".data cs
  let cs ← reqWs1 cs
  let cs ← matchLit "default".data cs
  let cs ← reqWs1 cs
  let cs ← matchLit "function".data cs
  let cs ← reqWs1 cs
  let nm := cs.takeWhile isWordChar
  if nm.isEmpty then none else some ⟨nm⟩

/-- Matcher for `export default (\w+);? eol` at the given position. -/
def matchDefaultNameAt (cs : List Char) : Option String := do
  let cs ← matchLit "export".data cs
  let cs ← reqWs1 cs
  let cs ← matchLit "default".data cs
  let cs ← reqWs1 cs
  let nm := cs.takeWhile isWordChar
  if nm.isEmpty then none else
  let cs := cs.dropWhile isWordChar
  let cs := optSemi cs
  if wsThenEol cs then some ⟨nm⟩ else none

/-- Leftmost match of a position matcher over the whole text. -/
def scanFor (m : List Char → Option String) : List Char → Option String
  | [] => m []
  | c :: rest =>
    match m (c :: rest) with
    | some r => some r
    | none => scanFor m rest

/-- The three detection attempts of `bundleFile`, in source order. -/
def findDefaultExport (code : String) : Option String :=
  match scanFor matchBraceDefaultAt code.data with
  | some nm => some nm
  | none =>
    match scanFor matchDefaultFunctionAt code.data with
    | some nm => some nm
    | none => scanFor matchDefaultNameAt code.data

/-- What `bundleFile` returns for one unit, as far as entry-point handling
is observable: the alias it will use as `componentName`, and the original
name it found (`none` means the rename is silently skipped — the source has
no failure branch for this case). -/
structure BundleOutcome where
  componentName : String
  originalName : Option String
deriving Repr, DecidableEq

/-- Entry-point detection outcome of `bundleFile(filePath, type, index)` on
the bundled `code` text (import-stripping and the rename rewrite do not
affect detection of the three export forms and are omitted). -/
def bundleFileOutcome (code : String) (type : String) (index : Nat) : BundleOutcome :=
  ⟨aliasNameFor type index, findDefaultExport code⟩

/-! ## The layout-aware route scanner (`src/routes.ts` `scanDir`)

`scanDir` iterates a directory's entries in enumeration order, keeping four
local slots (`pageComponent`, `getHandler`, `postHandler`,
`layoutComponent`).  A subdirectory is recursed into immediately, passing
`layouts ++ [layoutComponent]` only if a layout file has already been seen
at that point of the iteration; after the loop, a route entry is pushed for
this directory (children therefore precede their parent in the output). -/

/-- A directory entry as `readdirSync(..., [withFileTypes]) ` yields it, in
enumeration order. -/
inductive FsEntry where
  | file (name : String) : FsEntry
  | dir (name : String) (entries : List FsEntry) : FsEntry

/-- One entry of the produced route manifest. -/
structure ManifestRoute where
  path : String
  component : Option String
  getH : Option String
  postH : Option String
  layouts : List String
deriving Repr, DecidableEq

/-- The per-directory mutable slots plus the shared `routes` array. -/
structure ScanAcc where
  routes : List ManifestRoute
  pageComponent : Option String
  getHandler : Option String
  postHandler : Option String
  layoutComponent : Option String

/-- The skipped utility directories. -/
def skippedDirs : List String := ["components", "lib", "utils", "styles"]

/-- Recursive scan; `fuel` only bounds the (finite) directory depth so the
recursion is structural, every call site supplies more fuel than the tree is
deep.  Mirrors `scanDir(dir, prefix, routes, layouts)` statement for
statement. -/
def scanDirGo : Nat → String → List FsEntry → String → List String →
    List ManifestRoute → List ManifestRoute
  | 0, _, _, _, _, routes => routes
  | fuel + 1, dirPath, entries, pref, layouts, routes0 =>
    let st := entries.foldl
      (fun (st : ScanAcc) e =>
        match e with
        | .dir name sub =>
          if name ∈ skippedDirs then st
          else
            let childLayouts :=
              match st.layoutComponent with
              | some l => layouts ++ [l]
              | none => layouts
            let pref2 :=
              if strStartsWith name "[" && strEndsWith name "]" then
                pref ++ "/:" ++ strDropRight (strDrop name 1) 1
              else pref ++ "/" ++ name
            { st with routes :=
                scanDirGo fuel (dirPath ++ "/" ++ name) sub pref2 childLayouts st.routes }
        | .file name =>
          if name = "page.tsx" || name = "page.jsx" then
            { st with pageComponent := some (dirPath ++ "/" ++ name) }
          else if name = "get.ts" || name = "get.tsx" then
            { st with getHandler := some (dirPath ++ "/" ++ name) }
          else if name = "post.ts" || name = "post.tsx" then
            { st with postHandler := some (dirPath ++ "/" ++ name) }
          else if name = "layout.tsx" || name = "layout.jsx" then
            { st with layoutComponent := some (dirPath ++ "/" ++ name) }
          else st)
      ⟨routes0, none, none, none, none⟩
    if st.pageComponent.isSome || st.getHandler.isSome || st.postHandler.isSome then
      let finalLayouts :=
        match st.layoutComponent with
        | some l => layouts ++ [l]
        | none => layouts
      st.routes ++
        [{ path := if pref = "" then "/" else pref
           component := st.pageComponent
           getH := st.getHandler
           postH := st.postHandler
           layouts := finalLayouts }]
    else st.routes

/-- Entry point as `scanRoutes` uses it on the `app` directory. -/
def scanAppDir (appDirPath : String) (entries : List FsEntry) : List ManifestRoute :=
  scanDirGo 1000 appDirPath entries "" [] []

/-! ## Client-reference substitution of the Unit Bundler

Modelled from the spec: the Unit Bundler variant with client-component
support is not present under `src/` — only its callers are (`build.ts`
destructures `clientBundlePath` from `generateContract`, and the hydration
module generator consumes `structure.clientComponents` and decodes the
emitted client-reference markers).  Per the spec, when an import target
matches a known `ClientComponentEntry.sourcePath` (exactly, or after
stripping common source extensions), the import is not inlined; the bundler
emits a small reference object carrying the component's stable `moduleId`
instead of the file's body. -/

/-- Modelled from the spec: one source file marked for browser execution,
with its stable module identifier. -/
structure ClientComponentEntry where
  sourcePath : String
  moduleId : String
deriving Repr, DecidableEq

/-- Common source extensions stripped during import matching. -/
def sourceExtensions : List String := [".tsx", ".ts", ".jsx", ".js"]

/-- Strip one common source extension if present. -/
def stripSourceExt (p : String) : String :=
  match sourceExtensions.find? (fun ext => strEndsWith p ext) with
  | some ext => strDropRight p ext.data.length
  | none => p

/-- Modelled from the spec: an import target matches a client-component
entry exactly or after stripping common source extensions. -/
def importMatches (target : String) (cc : ClientComponentEntry) : Bool :=
  target == cc.sourcePath || stripSourceExt target == stripSourceExt cc.sourcePath

/-- One import of the page source being bundled: the resolved target path
and the imported file's body. -/
structure ImportedModule where
  target : String
  body : String
deriving Repr, DecidableEq

/-- A piece of the produced unit: an inlined module body, or the
client-reference stub carrying a `moduleId` (the marker the streaming tree
protocol recognizes as a client reference). -/
inductive UnitSegment where
  | inlined (body : String) : UnitSegment
  | clientRef (moduleId : String) : UnitSegment
deriving Repr, DecidableEq

/-- Modelled from the spec: the bundler's treatment of each import of a page
unit — a reference stub for the first matching client-component entry,
inlining otherwise. -/
def bundlePageImports (imports : List ImportedModule)
    (ccs : List ClientComponentEntry) : List UnitSegment :=
  imports.map fun im =>
    match ccs.find? (fun cc => importMatches im.target cc) with
    | some cc => .clientRef cc.moduleId
    | none => .inlined im.body

/-! ## Helper lemmas -/

set_option maxRecDepth 100000

theorem apiNormalized_startsWith (s : String) :
    strStartsWith (apiNormalized s) "/" = true := by
  unfold apiNormalized
  split
  · decide
  · split
    · assumption
    · have h : ("/" ++ s).data = '/' :: s.data := rfl
      simp [strStartsWith, h, List.isPrefixOf]

theorem firstStaticCaseAux_eq_none (i : Nat) (routes : List RouteFile) (path : String)
    (hmiss : ∀ r ∈ routes, r.routePath ≠ path) :
    firstStaticCaseAux i routes path = none := by
  induction routes generalizing i with
  | nil => rfl
  | cons r rs ih =>
    have hr : r.routePath ≠ path := hmiss r (List.mem_cons_self r rs)
    have hcond : (r.params.isNone && r.routePath == path) = false := by
      have : (r.routePath == path) = false := by
        simpa [beq_iff_eq] using hr
      simp [this]
    simp only [firstStaticCaseAux, hcond, if_false, Bool.false_eq_true]
    exact ih (i + 1) (fun r2 h2 => hmiss r2 (List.mem_cons_of_mem r h2))

theorem firstMatchAux_eq_none (i : Nat) (pages : List RouteFile) (path : String)
    (hmiss : ∀ r ∈ pages, routeMatches r path = false) :
    firstMatchAux i pages path = none := by
  induction pages generalizing i with
  | nil => rfl
  | cons r rs ih =>
    have hr := hmiss r (List.mem_cons_self r rs)
    simp only [firstMatchAux, hr, if_false, Bool.false_eq_true]
    exact ih (i + 1) (fun r2 h2 => hmiss r2 (List.mem_cons_of_mem r h2))

/-! ## Claims about the Unit Bundler -/

/-- C2: `bundleFile` locates the default export by the three patterns
(`export \x7b Name as default \x7d`, `export default function Name`,
`export default Name`); on the source below none matches, yet the function
returns normally with `originalName = none` and the alias `Page_0` that no
declaration was renamed to — there is no error path naming the file, the
documented fatal-error behavior is absent (the code bug the claim exposes). -/
theorem c2_missing_default_export_silent :
    bundleFileOutcome "// just a helper\nfunction helper() \x7b\n  return 1;\n\x7d\n" "page" 0 =
      { componentName := "Page_0", originalName := none } := by
  decide

/-- C1: a page import whose target matches a `ClientComponentEntry` (first
match of the catalog) contributes the client-reference stub carrying that
component's `moduleId` to the bundled unit, and a body text that only occurs
as matching imports is never present as an inlined segment. -/
theorem c1_client_reference_substitution
    (imports : List ImportedModule) (ccs : List ClientComponentEntry) :
    (∀ im ∈ imports, ∀ cc : ClientComponentEntry,
        ccs.find? (fun cc2 => importMatches im.target cc2) = some cc →
        UnitSegment.clientRef cc.moduleId ∈ bundlePageImports imports ccs) ∧
    (∀ b : String,
        (∀ im ∈ imports, im.body = b →
          (ccs.find? (fun cc => importMatches im.target cc)).isSome) →
        UnitSegment.inlined b ∉ bundlePageImports imports ccs) := by
  constructor
  · intro im him cc hfind
    have : (match ccs.find? (fun cc2 => importMatches im.target cc2) with
        | some cc2 => UnitSegment.clientRef cc2.moduleId
        | none => UnitSegment.inlined im.body) = UnitSegment.clientRef cc.moduleId := by
      rw [hfind]
    refine List.mem_map.mpr ⟨im, him, ?_⟩
    simpa [bundlePageImports] using this
  · intro b hall hmem
    rcases List.mem_map.mp hmem with ⟨im, him, heq⟩
    rcases hfind : ccs.find? (fun cc => importMatches im.target cc) with _ | cc
    · simp only [hfind] at heq
      have hbody : im.body = b := by
        simpa using congrArg (fun s => match s with
          | UnitSegment.inlined x => x
          | UnitSegment.clientRef x => x) heq
      have := hall im him hbody
      rw [hfind] at this
      simp at this
    · simp only [hfind] at heq
      exact absurd heq (by simp)

/-- Witness for C1 at a concrete catalog: the counter import is replaced by
its reference stub and its body is not inlined. -/
theorem c1_client_reference_substitution_witness :
    UnitSegment.clientRef "src_Counter" ∈
      bundlePageImports [⟨"src/Counter.tsx", "COUNTER_BODY"⟩]
        [⟨"src/Counter.tsx", "src_Counter"⟩] ∧
    UnitSegment.inlined "COUNTER_BODY" ∉
      bundlePageImports [⟨"src/Counter.tsx", "COUNTER_BODY"⟩]
        [⟨"src/Counter.tsx", "src_Counter"⟩] := by
  constructor
  · exact (c1_client_reference_substitution
      [⟨"src/Counter.tsx", "COUNTER_BODY"⟩] [⟨"src/Counter.tsx", "src_Counter"⟩]).1
      ⟨"src/Counter.tsx", "COUNTER_BODY"⟩ (by decide) ⟨"src/Counter.tsx", "src_Counter"⟩
      (by decide)
  · exact (c1_client_reference_substitution
      [⟨"src/Counter.tsx", "COUNTER_BODY"⟩] [⟨"src/Counter.tsx", "src_Counter"⟩]).2
      "COUNTER_BODY" (by decide)

/-! ## Claims about the generated routers -/

/-- C4: the page router built from `/posts/:id` does match `/posts/42`
with `params = id ↦ 42` and does not match `/posts`; but for an API
catalog containing the same dynamic route, `generateAPIRouter` emits the
route's `if`-statement directly inside the `switch (path)` body before any
`case` label — not parseable JavaScript, so the generated GET/POST router
never dispatches `/posts/42` (the code bug the claim exposes). -/
theorem c4_dynamic_route_dispatch :
    pageRouter [⟨"/posts/:id", some ["id"]⟩] ⟨"/posts/42", "GET"⟩ =
      .comp 0 ⟨"/posts/42", "GET"⟩ (some [("id", some "42")]) ∧
    pageRouter [⟨"/posts/:id", some ["id"]⟩] ⟨"/posts", "GET"⟩ =
      pageNotFoundTree "/posts" ∧
    hasIfBeforeFirstCase (generateAPIRouterCode [⟨"/posts/:id", some ["id"]⟩] "get") = true := by
  refine ⟨rfl, rfl, by decide⟩

/-! ## Claims about scanning and dispatch -/

/-- C7: layout threading in `scanDir` depends on `readdirSync` enumeration
order.  With the subdirectory enumerated before the directory's layout file,
the route discovered underneath carries no layouts at all; with the layout
file enumerated first, the same tree yields the layout chain the claim
requires.  The scanner's own comments say the layout "must be passed down
to children", so the first result is the code bug the claim exposes. -/
theorem c7_layout_threading_order_dependent :
    scanAppDir "app" [.dir "blog" [.file "page.tsx"], .file "layout.tsx"] =
      [{ path := "/blog", component := some "app/blog/page.tsx",
         getH := none, postH := none, layouts := [] }] ∧
    scanAppDir "app" [.file "layout.tsx", .dir "blog" [.file "page.tsx"]] =
      [{ path := "/blog", component := some "app/blog/page.tsx",
         getH := none, postH := none, layouts := ["app/layout.tsx"] }] := by
  exact ⟨rfl, rfl⟩

/-- C3 counterexample: for a GET/POST catalog whose first entry is dynamic
(`/:id`), the emitted router text contains the route's `if`-statement inside
the `switch (path)` body before any `case` label.  ECMAScript's CaseBlock
grammar admits no statement there, so the generated `post` router is not
valid JavaScript and cannot return the claimed 404 response for any request
(for instance `/a/b`, which matches no catalogued route). -/
theorem c3_dynamic_catalog_router_malformed :
    hasIfBeforeFirstCase (generateAPIRouterCode [⟨"/:id", some ["id"]⟩] "post") = true := by
  decide

/-- C3 (amended): for the empty catalog and for catalogs of static routes —
where the emitted `switch` is valid JavaScript — every request whose path
equals no catalogued `routePath` receives exactly
`\x7b status: 404, body: \x7b error: 'Not found' \x7d, headers:
\x7b 'Content-Type': 'application/json' \x7d \x7d`. -/
theorem c3_static_catalog_miss_404 (routes : List RouteFile) (req : Request)
    (_hstatic : ∀ r ∈ routes, r.params = none)
    (hmiss : ∀ r ∈ routes, r.routePath ≠ req.path) :
    apiRouter routes req = .response apiNotFound := by
  unfold apiRouter
  split
  · rfl
  · rw [firstStaticCaseAux_eq_none 0 routes req.path hmiss]

/-- Witness for the amended C3 at a concrete static catalog and the empty
catalog. -/
theorem c3_static_catalog_miss_404_witness :
    apiRouter [⟨"/orders", none⟩] ⟨"/nope", "GET"⟩ = .response apiNotFound ∧
    apiRouter [] ⟨"/nope", "GET"⟩ = .response apiNotFound := by
  constructor
  · exact c3_static_catalog_miss_404 [⟨"/orders", none⟩] ⟨"/nope", "GET"⟩
      (by decide) (by decide)
  · exact c3_static_catalog_miss_404 [] ⟨"/nope", "GET"⟩ (by decide) (by decide)

/-- C6 counterexample: with an empty page catalog every path matches no
catalogued page route, yet the generated `Page` returns the fixed
`'404 - Page Not Found'` div, which carries no `'Page not found: ' + path`
message; the SSR variant's default 404 document also lacks that message. -/
theorem c6_empty_catalog_no_path_message :
    pageRouter [] ⟨"/x", "GET"⟩ =
      .el "div" [("children", .str "404 - Page Not Found")] ∧
    "404 - Page Not Found" ≠ "Page not found: " ++ "/x" ∧
    strContainsSub ssrDefault404Body "Page not found: " = false := by
  refine ⟨rfl, by decide, by decide⟩

/-- C6 (amended): when at least one page exists, the generated `Page`
returns, for every request matching no catalogued page route, the fallback
div whose `h1` child holds the literal `'404'` and whose `p` child holds
`'Page not found: '` followed by the (normalized) request path. -/
theorem c6_page_router_miss_fallback (pages : List RouteFile) (req : Request)
    (hne : pages ≠ [])
    (hmiss : ∀ r ∈ pages, routeMatches r (if req.path = "" then "/" else req.path) = false) :
    pageRouter pages req = pageNotFoundTree (if req.path = "" then "/" else req.path) ∧
    pageNotFoundTree (if req.path = "" then "/" else req.path) =
      .el "div"
        [("style", .obj [("padding", "40px"), ("textAlign", "center")]),
         ("children", .nodes
           [.el "h1" [("key", .str "title"), ("children", .str "404")],
            .el "p" [("key", .str "msg"),
                     ("children", .str ("Page not found: " ++
                        (if req.path = "" then "/" else req.path)))]])] := by
  constructor
  · unfold pageRouter
    rw [if_neg (by simpa [List.isEmpty_iff] using hne)]
    simp only [firstMatchAux_eq_none 0 pages _ hmiss]
  · rfl

/-- Witness for the amended C6 at a concrete one-page catalog and an
unmatched path. -/
theorem c6_page_router_miss_fallback_witness :
    pageRouter [⟨"/", none⟩] ⟨"/nope", "GET"⟩ = pageNotFoundTree "/nope" := by
  exact (c6_page_router_miss_fallback [⟨"/", none⟩] ⟨"/nope", "GET"⟩
    (by decide) (by decide)).1

/-- C5: the generated composite `Get` strips the API prefix from any
API-prefixed path, re-normalizes the remainder to a leading `/`, and
delegates to the `post` router exactly when the method is `POST` (to `get`
otherwise); every path not under the API prefix yields the `null` sentinel
and no page rendering happens in the dispatcher. -/
theorem c5_composite_dispatch (req : Request) :
    ((strStartsWith req.path "/api" = true ∨ strStartsWith req.path "api" = true) →
      tanaGet req = (if req.method = "POST" then .toPost (apiRequestOf req)
                     else .toGet (apiRequestOf req)) ∧
      strStartsWith (apiRequestOf req).path "/" = true) ∧
    (strStartsWith req.path "/api" = false → strStartsWith req.path "api" = false →
      tanaGet req = .pageNull) := by
  constructor
  · intro h
    constructor
    · unfold tanaGet
      rcases h with h | h <;> simp [h]
    · exact apiNormalized_startsWith _
  · intro h1 h2
    unfold tanaGet
    simp [h1, h2]

/-- Witness for C5 at concrete requests on both sides of the prefix test. -/
theorem c5_composite_dispatch_witness :
    tanaGet ⟨"/api/users", "GET"⟩ = .toGet ⟨"/users", "GET"⟩ ∧
    tanaGet ⟨"/about", "GET"⟩ = .pageNull := by
  constructor
  · have h := ((c5_composite_dispatch ⟨"/api/users", "GET"⟩).1 (Or.inl (by decide))).1
    rw [h]
    decide
  · exact (c5_composite_dispatch ⟨"/about", "GET"⟩).2 (by decide) (by decide)

/-- C10: API classification is by raw character prefix, not path segment.
Any path beginning with the four characters `/api` has exactly those four
characters sliced off (three for a bare `api` prefix), the remainder is
re-normalized to a leading `/`, and the request is delegated to an API
method router — it never falls through to the page-routing sentinel. -/
theorem c10_raw_prefix_api_classification (req : Request) :
    (strStartsWith req.path "/api" = true →
      tanaGet req ≠ .pageNull ∧
      tanaGet req = (if req.method = "POST"
        then .toPost { req with path := apiNormalized (strDrop req.path 4) }
        else .toGet { req with path := apiNormalized (strDrop req.path 4) })) ∧
    (strStartsWith req.path "/api" = false → strStartsWith req.path "api" = true →
      tanaGet req ≠ .pageNull ∧
      tanaGet req = (if req.method = "POST"
        then .toPost { req with path := apiNormalized (strDrop req.path 3) }
        else .toGet { req with path := apiNormalized (strDrop req.path 3) })) := by
  constructor
  · intro h
    have heq : tanaGet req = (if req.method = "POST"
        then .toPost { req with path := apiNormalized (strDrop req.path 4) }
        else .toGet { req with path := apiNormalized (strDrop req.path 4) }) := by
      unfold tanaGet apiRequestOf apiStripped
      simp [h]
    refine ⟨?_, heq⟩
    rw [heq]
    split <;> simp
  · intro h1 h2
    have heq : tanaGet req = (if req.method = "POST"
        then .toPost { req with path := apiNormalized (strDrop req.path 3) }
        else .toGet { req with path := apiNormalized (strDrop req.path 3) }) := by
      unfold tanaGet apiRequestOf apiStripped
      simp [h1, h2]
    refine ⟨?_, heq⟩
    rw [heq]
    split <;> simp

/-! ## Partial-line buffering: chunk-split invariance of the codec -/

theorem splitLines_append (a b : List Char) :
    splitLines (a ++ b) =
      ((splitLines a).1 ++ (splitLines ((splitLines a).2 ++ b)).1,
       (splitLines ((splitLines a).2 ++ b)).2) := by
  induction a with
  | nil => simp [splitLines]
  | cons c rest ih =>
    by_cases hc : c = '\n'
    · simp [splitLines, hc, ih]
    · cases hls : (splitLines rest).1 with
      | nil =>
        simp only [List.cons_append, splitLines, hc, if_false, ih, hls, List.nil_append]
        cases hm : (splitLines ((splitLines rest).2 ++ b)).1 <;> simp [hm, ih, hls]
      | cons l ls2 =>
        simp [splitLines, hc, ih, hls]


theorem processLine_buffer (st : CodecState) (l : List Char) :
    (processLine st l).buffer = st.buffer := by
  rcases hrow : parseFlightRow l with e | o
  · by_cases hab : st.aborted = true <;> by_cases hbl : l.all isWsChar = true <;>
      simp [processLine, hab, hbl, hrow]
  · rcases o with _ | ⟨id, v⟩ <;>
      (by_cases hab : st.aborted = true <;> by_cases hbl : l.all isWsChar = true <;>
        simp [processLine, hab, hbl, hrow])

theorem foldl_processLine_buffer (ls : List (List Char)) (st : CodecState) :
    (List.foldl processLine st ls).buffer = st.buffer := by
  induction ls generalizing st with
  | nil => rfl
  | cons l ls ih => rw [List.foldl_cons, ih, processLine_buffer]

theorem processLine_congr (s t : CodecState) (l : List Char)
    (hc : s.cache = t.cache) (ha : s.aborted = t.aborted) :
    (processLine s l).cache = (processLine t l).cache ∧
    (processLine s l).aborted = (processLine t l).aborted := by
  rcases hrow : parseFlightRow l with e | o
  · by_cases hab : t.aborted = true <;> by_cases hbl : l.all isWsChar = true <;>
      constructor <;> simp [processLine, hab, hbl, hrow, hc, ha]
  · rcases o with _ | ⟨id, v⟩ <;>
      (by_cases hab : t.aborted = true <;> by_cases hbl : l.all isWsChar = true <;>
        constructor <;> simp [processLine, hab, hbl, hrow, hc, ha])

theorem foldl_processLine_congr (ls : List (List Char)) (s t : CodecState)
    (hc : s.cache = t.cache) (ha : s.aborted = t.aborted) :
    (List.foldl processLine s ls).cache = (List.foldl processLine t ls).cache ∧
    (List.foldl processLine s ls).aborted = (List.foldl processLine t ls).aborted := by
  induction ls generalizing s t with
  | nil => exact ⟨hc, ha⟩
  | cons l ls ih =>
    rw [List.foldl_cons, List.foldl_cons]
    have h := processLine_congr s t l hc ha
    exact ih (processLine s l) (processLine t l) h.1 h.2

theorem processLine_aborted_id (st : CodecState) (l : List Char)
    (h : st.aborted = true) : processLine st l = st := by
  simp [processLine, h]

theorem foldl_processLine_aborted (ls : List (List Char)) (st : CodecState)
    (h : st.aborted = true) : List.foldl processLine st ls = st := by
  induction ls with
  | nil => rfl
  | cons l ls ih =>
    rw [List.foldl_cons, processLine_aborted_id st l h]
    exact ih

theorem feed_proj (st : CodecState) (c : List Char) (h : st.aborted = false) :
    (feed st c).buffer = (splitLines (st.buffer ++ c)).2 ∧
    (feed st c).cache =
      (List.foldl processLine st (splitLines (st.buffer ++ c)).1).cache ∧
    (feed st c).aborted =
      (List.foldl processLine st (splitLines (st.buffer ++ c)).1).aborted := by
  unfold feed
  rw [if_neg (by simp [h])]
  refine ⟨?_, ?_, ?_⟩
  · rw [foldl_processLine_buffer]
  · exact (foldl_processLine_congr (splitLines (st.buffer ++ c)).1
      { st with buffer := (splitLines (st.buffer ++ c)).2 } st rfl rfl).1
  · exact (foldl_processLine_congr (splitLines (st.buffer ++ c)).1
      { st with buffer := (splitLines (st.buffer ++ c)).2 } st rfl rfl).2

theorem feed_aborted (st : CodecState) (c : List Char) (h : st.aborted = true) :
    feed st c = st := by
  simp [feed, h]

theorem feed_append (st : CodecState) (a b : List Char) (h : st.aborted = false) :
    (feed st (a ++ b)).cache = (feed (feed st a) b).cache ∧
    (feed st (a ++ b)).aborted = (feed (feed st a) b).aborted ∧
    ((feed st (a ++ b)).aborted = false →
      (feed st (a ++ b)).buffer = (feed (feed st a) b).buffer) := by
  obtain ⟨hXb, hXc, hXa⟩ := feed_proj st (a ++ b) h
  rw [show st.buffer ++ (a ++ b) = (st.buffer ++ a) ++ b from (List.append_assoc _ _ _).symm,
      splitLines_append (st.buffer ++ a) b] at hXb hXc hXa
  dsimp only at hXb hXc hXa
  rw [List.foldl_append] at hXc hXa
  obtain ⟨hZb, hZc, hZa⟩ := feed_proj st a h
  by_cases hW : (List.foldl processLine st (splitLines (st.buffer ++ a)).1).aborted = true
  · have hfix := foldl_processLine_aborted
      (splitLines ((splitLines (st.buffer ++ a)).2 ++ b)).1
      (List.foldl processLine st (splitLines (st.buffer ++ a)).1) hW
    rw [hfix] at hXc hXa
    have hY : feed (feed st a) b = feed st a :=
      feed_aborted _ b (hZa.trans hW)
    refine ⟨?_, ?_, ?_⟩
    · rw [hXc, hY, hZc]
    · rw [hXa, hY, hZa]
    · intro habs
      rw [hXa] at habs
      rw [hW] at habs
      cases habs
  · have hWf : (List.foldl processLine st (splitLines (st.buffer ++ a)).1).aborted = false :=
      Bool.eq_false_iff.mpr hW
    obtain ⟨hYb, hYc, hYa⟩ := feed_proj (feed st a) b (hZa.trans hWf)
    rw [hZb] at hYb hYc hYa
    have hcongr := foldl_processLine_congr
      (splitLines ((splitLines (st.buffer ++ a)).2 ++ b)).1
      (feed st a) (List.foldl processLine st (splitLines (st.buffer ++ a)).1) hZc hZa
    refine ⟨?_, ?_, ?_⟩
    · rw [hXc, hYc, hcongr.1]
    · rw [hXa, hYa, hcongr.2]
    · intro _
      rw [hXb, hYb]

theorem finishCodec_aborted (st : CodecState) (h : st.aborted = true) :
    finishCodec st = st := by
  simp [finishCodec, h]

theorem codecState_eq (s t : CodecState) (h1 : s.buffer = t.buffer)
    (h2 : s.cache = t.cache) (h3 : s.aborted = t.aborted) : s = t := by
  cases s; cases t; simp_all

/-- C8: feeding any payload to the codec as two chunks split at any offset
(including mid-row) yields the same final row-cache contents as feeding the
whole payload at once; the trailing partial line is buffered by the first
chunk and completed by the second.  The statement is unconditional over
payloads and offsets, so it covers in particular every valid multi-row wire
payload. -/
theorem c8_chunk_split_invariance (payload : List Char) (i : Nat) :
    (runCodec [payload.take i, payload.drop i]).cache = (runCodec [payload]).cache := by
  unfold runCodec
  simp only [List.foldl_cons, List.foldl_nil]
  have h := feed_append initCodec (payload.take i) (payload.drop i) rfl
  rw [List.take_append_drop] at h
  rcases h with ⟨hc, ha, hb⟩
  by_cases habort : (feed initCodec payload).aborted = true
  · rw [finishCodec_aborted _ (ha ▸ habort), finishCodec_aborted _ habort]
    exact hc.symm
  · have haf : (feed initCodec payload).aborted = false := Bool.eq_false_iff.mpr habort
    have heq : feed initCodec payload = feed (feed initCodec (payload.take i)) (payload.drop i) :=
      codecState_eq _ _ (hb haf) hc ha
    rw [← heq]

/-! ## Malformed-row behavior of the codec -/

/-- C9 counterexample: in the stream `0:\x7b` then `1:"ok"`, the first row's
post-colon text is malformed JSON, so `JSON.parse` throws and the whole
decode aborts: the second row — well-formed on its own, as the last two
conjuncts show — is never parsed or cached, contradicting the claimed
per-row tolerance. -/
theorem c9_malformed_row_aborts_decode :
    (runCodec ["0:\x7b\n1:\x22ok\x22".data]).cache = [] ∧
    (runCodec ["0:\x7b\n1:\x22ok\x22".data]).aborted = true ∧
    parseFlightRow "1:\x22ok\x22".data = .ok (some (some 1, .jstr "ok")) ∧
    (runCodec ["1:\x22ok\x22".data]).cache = [(some 1, .jstr "ok")] := by
  exact ⟨rfl, rfl, rfl, rfl⟩

/-- C9 (amended): the codec's per-row tolerance covers only rows without a
colon (`parseFlightRow` returns `null` and the row is skipped); a row whose
post-colon text is malformed JSON makes `JSON.parse` throw, the decode
aborts, and from an aborted state no further row is processed. -/
theorem c9_row_error_handling (st st2 : CodecState) (l1 l2 : List Char)
    (ls : List (List Char)) (h : st.aborted = false) :
    (firstIdxOf ':' l1 = none → processLine st l1 = st) ∧
    (∀ ci : Nat, firstIdxOf ':' l2 = some ci →
      jsonParse (l2.drop (ci + 1)) = none → l2.all isWsChar = false →
      (processLine st l2).aborted = true) ∧
    (st2.aborted = true → List.foldl processLine st2 ls = st2) := by
  refine ⟨?_, ?_, ?_⟩
  · intro hnc
    by_cases hbl : l1.all isWsChar = true
    · simp [processLine, hbl]
    · simp [processLine, h, Bool.eq_false_iff.mpr hbl, parseFlightRow, hnc]
  · intro ci hci hjson hbl
    simp [processLine, h, hbl, parseFlightRow, hci, hjson]
  · exact fun h2 => foldl_processLine_aborted ls st2 h2

/-- Witness for the amended C9: a colonless row is skipped, a malformed-JSON
row aborts, and from the aborted state a later well-formed row is ignored. -/
theorem c9_row_error_handling_witness :
    processLine initCodec "hello".data = initCodec ∧
    (processLine initCodec "2:nope".data).aborted = true ∧
    List.foldl processLine ⟨[], [], true⟩ ["3:1".data] = ⟨[], [], true⟩ := by
  refine ⟨?_, ?_, ?_⟩
  · exact (c9_row_error_handling initCodec ⟨[], [], true⟩ "hello".data "2:nope".data
      ["3:1".data] rfl).1 rfl
  · exact (c9_row_error_handling initCodec ⟨[], [], true⟩ "hello".data "2:nope".data
      ["3:1".data] rfl).2.1 1 rfl rfl rfl
  · exact (c9_row_error_handling initCodec ⟨[], [], true⟩ "hello".data "2:nope".data
      ["3:1".data] rfl).2.2 rfl

/-- Witness for C10 at the path `/apikey`, whose prefix is not followed by a
separator: it is still classified as an API request (`/key` after stripping
and re-normalization) and never reaches page routing; likewise for a bare
`apikey` path. -/
theorem c10_raw_prefix_api_classification_witness :
    tanaGet ⟨"/apikey", "GET"⟩ = .toGet ⟨"/key", "GET"⟩ ∧
    tanaGet ⟨"/apikey", "GET"⟩ ≠ .pageNull ∧
    tanaGet ⟨"apikey", "GET"⟩ = .toGet ⟨"/key", "GET"⟩ := by
  refine ⟨?_, ?_, ?_⟩
  · have h := ((c10_raw_prefix_api_classification ⟨"/apikey", "GET"⟩).1 (by decide)).2
    rw [h]
    decide
  · exact ((c10_raw_prefix_api_classification ⟨"/apikey", "GET"⟩).1 (by decide)).1
  · have h := ((c10_raw_prefix_api_classification ⟨"apikey", "GET"⟩).2 (by decide) (by decide)).2
    rw [h]
    decide

/-! ## Sanity checks of the embedding on concrete inputs -/

/-- Two well-formed rows are cached under their ids in arrival order. -/
theorem codec_caches_rows_sanity :
    (runCodec ["0:\x22a\x22\n1:\x7b\x22k\x22:2\x7d".data]).cache =
      [(some 0, .jstr "a"), (some 1, .jobj [("k", .jnum "2")])] := rfl

/-- The three default-export patterns `bundleFile` handles are each detected
with the right captured name. -/
theorem findDefaultExport_sanity :
    findDefaultExport "function handler() \x7b\x7d\nexport \x7b handler as default \x7d;\n" =
      some "handler" ∧
    findDefaultExport "export default function Home() \x7b\x7d" = some "Home" ∧
    findDefaultExport "function A()\x7b\x7d\nexport default A;\n" = some "A" :=
  ⟨rfl, rfl, rfl⟩
